import Mathlib

/-!
Shallow embedding of the post-visibility and authorization policy of the
blogicum application (src/blogicum/blog/views.py, src/blogicum/blog/models.py).

Entities mirror the Django models: `Post.category` holds the related
`Category` object or `none` (the FK is nullable, SET_NULL on delete), as the
view code accesses `self.object.category` directly.  Timestamps are `Int`.
Viewers are `Option Nat`: `none` is Django's `AnonymousUser`, `some u` an
authenticated user id.
-/

/-- Category model (blog/models.py, class Category): title, description,
unique slug, is_published flag, created_at. -/
structure Category where
  id : Nat
  title : String
  description : String
  slug : String
  is_published : Bool
  created_at : Int
deriving DecidableEq, Repr

/-- Location model (blog/models.py, class Location). -/
structure Location where
  id : Nat
  name : String
  is_published : Bool
  created_at : Int
deriving DecidableEq, Repr

/-- Post model (blog/models.py, class Post): the `category` and `location`
foreign keys are nullable, so they embed as `Option`; the related object is
stored inline, matching how the views dereference `post.category`. -/
structure Post where
  id : Nat
  title : String
  text : String
  pub_date : Int
  author : Nat
  location : Option Location
  category : Option Category
  is_published : Bool
  created_at : Int
deriving DecidableEq, Repr

/-- Comment model (blog/models.py, class Comment): text, post FK (CASCADE),
author FK, created_at; Meta ordering is ascending created_at. -/
structure Comment where
  id : Nat
  text : String
  post : Nat
  author : Nat
  created_at : Int
deriving DecidableEq, Repr

/-- The entity store: the relational tables the views query. -/
structure Store where
  categories : List Category
  posts : List Post
  comments : List Comment
deriving DecidableEq, Repr

/-- Fetch a post by primary key (`get_object_or_404(Post, pk=...)`). -/
def lookupPost (s : Store) (pid : Nat) : Option Post :=
  s.posts.find? (fun p => p.id == pid)

/-- Fetch a comment by primary key. -/
def lookupComment (s : Store) (cid : Nat) : Option Comment :=
  s.comments.find? (fun c => c.id == cid)

/-- Fetch a category by its unique slug
(`get_object_or_404(Category, slug=category_slug)`). -/
def lookupCategoryBySlug (s : Store) (slug : String) : Option Category :=
  s.categories.find? (fun c => c.slug == slug)

/-- Number of comments attached to a post: the
`annotate(comment_count=Count('comments'))` value. -/
def commentCount (s : Store) (p : Post) : Nat :=
  (s.comments.filter (fun c => c.post == p.id)).length

/-- Sort posts by `pub_date` descending (`order_by('-pub_date')`). -/
def sortByPubDateDesc (l : List Post) : List Post :=
  l.mergeSort (fun a b => decide (b.pub_date ≤ a.pub_date))

/-- Split a list into consecutive chunks of size `n`. -/
def chunkList (n : Nat) (l : List α) : List (List α) :=
  match l with
  | [] => []
  | x :: xs =>
    if _hn : n = 0 then []
    else (x :: xs).take n :: chunkList n ((x :: xs).drop n)
termination_by l.length
decreasing_by
  rw [List.length_drop]
  simp only [List.length_cons]
  omega

/-- Django `Paginator(per_page = n)` with `allow_empty_first_page`: an empty
result set still yields one (empty) page. -/
def paginate (n : Nat) (l : List α) : List (List α) :=
  if l.isEmpty then [[]] else chunkList n l

/-- Well-formedness of the store, the integrity the relational layer
guarantees: primary keys are unique, category slugs are unique, and a post's
inlined category object is a row of the category table. -/
def Store.wf (s : Store) : Prop :=
  s.posts.Pairwise (fun a b => a.id ≠ b.id) ∧
  s.comments.Pairwise (fun a b => a.id ≠ b.id) ∧
  s.categories.Pairwise (fun a b => a.id ≠ b.id) ∧
  (∀ c1 ∈ s.categories, ∀ c2 ∈ s.categories, c1.slug = c2.slug → c1 = c2) ∧
  (∀ p ∈ s.posts, ∀ c, p.category = some c → c ∈ s.categories)

instance (s : Store) : Decidable s.wf := by
  unfold Store.wf
  infer_instance

/-! ### Post detail (views.py, PostDetailView.get) -/

/-- Outcome of the post detail request body. -/
inductive PostDetailOutcome
  | ok (p : Post)
  | notFound
deriving DecidableEq, Repr

/-- Condition under which PostDetailView.get hides a post from non-authors:
`(pub_date > current_time) or (not is_published) or
(category and not category.is_published)`; a `None` category makes the last
clause falsy. -/
def hiddenFromPublic (p : Post) (now : Int) : Bool :=
  decide (now < p.pub_date) || !p.is_published ||
    (match p.category with
     | some c => !c.is_published
     | none => false)

/-- Embedding of PostDetailView.get (views.py lines 83-95): fetch the post by
pk (404 if absent); if it is hidden from the public and the requesting user is
not its author, raise Http404; otherwise render the post. The viewer is the
request user, `none` for AnonymousUser. -/
def get_post_detail (s : Store) (pid : Nat) (viewer : Option Nat) (now : Int) :
    PostDetailOutcome :=
  match lookupPost s pid with
  | none => PostDetailOutcome.notFound
  | some p =>
    if hiddenFromPublic p now && !(viewer == some p.author) then
      PostDetailOutcome.notFound
    else
      PostDetailOutcome.ok p

/-- Comments shown on the detail page
(`self.object.comments.select_related('author')` with the model Meta ordering
`('created_at',)` ascending). -/
def list_comments (s : Store) (p : Post) : List Comment :=
  (s.comments.filter (fun c => c.post == p.id)).mergeSort
    (fun a b => decide (a.created_at ≤ b.created_at))

/-! ### Public index (views.py, PostListView) -/

/-- Row filter of PostListView.get_queryset: `is_published=True`,
`pub_date__lte=current_time`, `category__is_published=True`.  The last lookup
joins through the nullable FK, so a post with a `None` category never
matches. -/
def publicIndexFilter (now : Int) (p : Post) : Bool :=
  p.is_published && decide (p.pub_date ≤ now) &&
    (match p.category with
     | some c => c.is_published
     | none => false)

/-- Embedding of PostListView (views.py lines 57-72): filter, annotate each
post with its comment count, order by `-pub_date`, paginate by 10. -/
def list_public_posts (s : Store) (now : Int) : List (List (Post × Nat)) :=
  paginate 10
    ((sortByPubDateDesc (s.posts.filter (publicIndexFilter now))).map
      (fun p => (p, commentCount s p)))

/-! ### Category listing (views.py, CategoryListView) -/

/-- Outcome of the category page: the resolved category plus pages of posts,
or a 404. -/
inductive CategoryListOutcome
  | ok (cat : Category) (pages : List (List Post))
  | notFound
deriving DecidableEq, Repr

/-- Row filter of CategoryListView.get_queryset: `category__slug=slug`,
`is_published=True`, `pub_date__lte=current_time`; no category-published
clause at the post level. -/
def categoryPostsFilter (slug : String) (now : Int) (p : Post) : Bool :=
  (match p.category with
   | some c => c.slug == slug
   | none => false) &&
  p.is_published && decide (p.pub_date ≤ now)

/-- Embedding of CategoryListView.get + get_queryset (views.py lines 27-48):
resolve the category by slug (404 if absent), 404 if it is unpublished, else
list its published past-dated posts ordered by `-pub_date`, paginated by
10. -/
def list_category_posts (s : Store) (slug : String) (now : Int) :
    CategoryListOutcome :=
  match lookupCategoryBySlug s slug with
  | none => CategoryListOutcome.notFound
  | some cat =>
    if !cat.is_published then CategoryListOutcome.notFound
    else
      CategoryListOutcome.ok cat
        (paginate 10 (sortByPubDateDesc (s.posts.filter
          (categoryPostsFilter slug now))))

/-! ### Profile listing (views.py, ProfileDetailView.get_context_data) -/

/-- Embedding of ProfileDetailView.get_context_data (views.py lines 157-174):
all the profile user's posts, annotated with comment counts and ordered by
`-pub_date`; when the viewer is not the profile user the public filter
`is_published=True, pub_date__lte=now` is applied on top (no category
clause); pages of 10. -/
def list_profile_posts (s : Store) (profileUser : Nat) (viewer : Option Nat)
    (now : Int) : List (List (Post × Nat)) :=
  let userPosts :=
    (sortByPubDateDesc (s.posts.filter (fun p => p.author == profileUser))).map
      (fun p => (p, commentCount s p))
  let posts :=
    if viewer == some profileUser then userPosts
    else userPosts.filter
      (fun pr => pr.1.is_published && decide (pr.1.pub_date ≤ now))
  paginate 10 posts

/-! ### Post mutation (views.py, PostUpdateView / PostDeleteView dispatch) -/

/-- Outcome of a post edit request. -/
inductive PostEditOutcome
  | edited
  | redirectToDetail (pid : Nat)
  | notFound
deriving DecidableEq, Repr

/-- Replace the post with pk `pid` by `f` applied to it. -/
def updatePost (s : Store) (pid : Nat) (f : Post → Post) : Store :=
  { s with posts := s.posts.map (fun p => if p.id == pid then f p else p) }

/-- Embedding of PostUpdateView.dispatch (views.py lines 128-132) plus the
edit it guards: fetch the post by pk (404 if absent); if its author is not
the request user, redirect to the post detail page and change nothing;
otherwise apply the edit (the form processing is abstracted as `f`).  The
custom dispatch runs before the LoginRequiredMixin check, so an anonymous
viewer is also redirected to the detail page. -/
def post_edit (s : Store) (pid : Nat) (viewer : Option Nat) (f : Post → Post) :
    PostEditOutcome × Store :=
  match lookupPost s pid with
  | none => (PostEditOutcome.notFound, s)
  | some p =>
    if !(some p.author == viewer) then
      (PostEditOutcome.redirectToDetail pid, s)
    else
      (PostEditOutcome.edited, updatePost s pid f)

/-- Outcome of a post delete request. -/
inductive PostDeleteOutcome
  | deleted
  | redirectToDetail (pid : Nat)
  | notFound
deriving DecidableEq, Repr

/-- Embedding of PostDeleteView.dispatch (views.py lines 143-148) plus the
deletion it guards: fetch the post by pk (404 if absent); if the request user
is not its author, redirect to the post detail page and change nothing;
otherwise delete the post, cascading to its comments (models.py: the comment
FK has on_delete=CASCADE). -/
def post_delete (s : Store) (pid : Nat) (viewer : Option Nat) :
    PostDeleteOutcome × Store :=
  match lookupPost s pid with
  | none => (PostDeleteOutcome.notFound, s)
  | some p =>
    if !(viewer == some p.author) then
      (PostDeleteOutcome.redirectToDetail pid, s)
    else
      (PostDeleteOutcome.deleted,
        { s with
          posts := s.posts.filter (fun q => !(q.id == pid)),
          comments := s.comments.filter (fun c => !(c.post == pid)) })

/-! ### Comment mutation (views.py, CommentUpdateView / CommentDeleteView)

Both views carry LoginRequiredMixin and no custom dispatch, so the request
user reaching these code paths is always authenticated: the viewer is a plain
user id here. -/

/-- Outcome of a comment edit or delete request. -/
inductive CommentMutateOutcome
  | ok
  | notFound
deriving DecidableEq, Repr

/-- Validity of the comment form (blog/forms.py, CommentForm with fields
`('text',)`): the text field is required, so blank input is invalid. -/
def commentFormValid (text : String) : Bool :=
  !(text == "")

/-- Replace the text of the comment with pk `cid`. -/
def setCommentText (s : Store) (cid : Nat) (text : String) : Store :=
  { s with comments :=
      s.comments.map (fun c => if c.id == cid then { c with text := text } else c) }

/-- Embedding of CommentUpdateView (views.py lines 211-230): get_object looks
the comment up inside `Comment.objects.filter(author=request.user)`, so a
comment of another author is a 404; on invalid form data form_invalid raises
Http404; otherwise the text is saved. -/
def comment_edit (s : Store) (cid : Nat) (viewer : Nat) (text : String) :
    CommentMutateOutcome × Store :=
  match (s.comments.filter (fun c => c.author == viewer)).find?
      (fun c => c.id == cid) with
  | none => (CommentMutateOutcome.notFound, s)
  | some _ =>
    if !(commentFormValid text) then (CommentMutateOutcome.notFound, s)
    else (CommentMutateOutcome.ok, setCommentText s cid text)

/-- Embedding of CommentDeleteView (views.py lines 233-250): get_object looks
the comment up inside `Comment.objects.filter(author=request.user)` (404 when
it belongs to someone else); delete() re-checks the author before removing the
row. -/
def comment_delete (s : Store) (cid : Nat) (viewer : Nat) :
    CommentMutateOutcome × Store :=
  match (s.comments.filter (fun c => c.author == viewer)).find?
      (fun c => c.id == cid) with
  | none => (CommentMutateOutcome.notFound, s)
  | some c =>
    if !(c.author == viewer) then (CommentMutateOutcome.notFound, s)
    else
      (CommentMutateOutcome.ok,
        { s with comments := s.comments.filter (fun x => !(x.id == cid)) })

/-! ### Full request dispatch for the read pages

PostDetailView and CategoryListView both inherit LoginRequiredMixin and do
not override dispatch, so the mixin's check runs first: an anonymous request
is redirected to the login page before the view body executes.  PostListView
and ProfileDetailView carry no mixin. -/

/-- Outcome of a full post-detail request, mixin included. -/
inductive DetailPage
  | ok (p : Post)
  | notFound
  | loginRedirect
deriving DecidableEq, Repr

/-- Full dispatch of PostDetailView: LoginRequiredMixin first, then the get
body. -/
def post_detail_dispatch (s : Store) (pid : Nat) (viewer : Option Nat)
    (now : Int) : DetailPage :=
  match viewer with
  | none => DetailPage.loginRedirect
  | some u =>
    match get_post_detail s pid (some u) now with
    | PostDetailOutcome.ok p => DetailPage.ok p
    | PostDetailOutcome.notFound => DetailPage.notFound

/-- Outcome of a full category-page request, mixin included. -/
inductive CategoryPage
  | ok (cat : Category) (pages : List (List Post))
  | notFound
  | loginRedirect
deriving DecidableEq, Repr

/-- Full dispatch of CategoryListView: LoginRequiredMixin first, then the
get body. -/
def category_list_dispatch (s : Store) (slug : String) (viewer : Option Nat)
    (now : Int) : CategoryPage :=
  match viewer with
  | none => CategoryPage.loginRedirect
  | some _ =>
    match list_category_posts s slug now with
    | CategoryListOutcome.ok cat pages => CategoryPage.ok cat pages
    | CategoryListOutcome.notFound => CategoryPage.notFound

/-! ### Helper lemmas -/

theorem chunkList_nil (n : Nat) : chunkList n ([] : List α) = [] := by
  rw [chunkList]

theorem chunkList_cons_eq (n : Nat) (hn : n ≠ 0) (l : List α) (hl : l ≠ []) :
    chunkList n l = l.take n :: chunkList n (l.drop n) := by
  match l, hl with
  | x :: xs, _ =>
    rw [chunkList]
    simp [hn]

theorem chunkList_join (n : Nat) (hn : n ≠ 0) :
    ∀ l : List α, (chunkList n l).flatten = l
  | [] => by rw [chunkList_nil]; rfl
  | x :: xs => by
    rw [chunkList_cons_eq n hn (x :: xs) (by simp)]
    rw [List.flatten_cons, chunkList_join n hn ((x :: xs).drop n)]
    exact List.take_append_drop n (x :: xs)
termination_by l => l.length
decreasing_by
  rw [List.length_drop]
  simp only [List.length_cons]
  omega

theorem chunkList_page_length (n : Nat) :
    ∀ l : List α, ∀ page ∈ chunkList n l, page.length ≤ n
  | [] => by rw [chunkList_nil]; intro page h; cases h
  | x :: xs => by
    by_cases hn : n = 0
    · rw [chunkList]; simp [hn]
    · rw [chunkList_cons_eq n hn (x :: xs) (by simp)]
      intro page hpage
      cases hpage with
      | head => simp [List.length_take]
      | tail _ htail =>
        exact chunkList_page_length n ((x :: xs).drop n) page htail
termination_by l => l.length
decreasing_by
  rw [List.length_drop]
  simp only [List.length_cons]
  omega

theorem paginate_join (n : Nat) (hn : n ≠ 0) (l : List α) :
    (paginate n l).flatten = l := by
  unfold paginate
  by_cases h : l.isEmpty
  · rw [if_pos h]
    rw [List.isEmpty_iff] at h
    simp [h]
  · rw [if_neg h]
    exact chunkList_join n hn l

theorem paginate_page_length (n : Nat) (l : List α) :
    ∀ page ∈ paginate n l, page.length ≤ n := by
  unfold paginate
  by_cases h : l.isEmpty
  · rw [if_pos h]
    intro page hpage
    simp at hpage
    simp [hpage]
  · rw [if_neg h]
    exact chunkList_page_length n l

theorem chunkList_ten_of_len_25 (l : List α) (h : l.length = 25) :
    (chunkList 10 l).map List.length = [10, 10, 5] := by
  have h0 : l ≠ [] := by intro e; rw [e] at h; simp at h
  rw [chunkList_cons_eq 10 (by omega) l h0]
  have hd1 : (l.drop 10).length = 15 := by rw [List.length_drop, h]
  have h1 : l.drop 10 ≠ [] := by
    intro e; rw [e] at hd1; simp at hd1
  rw [chunkList_cons_eq 10 (by omega) (l.drop 10) h1]
  have hd2 : ((l.drop 10).drop 10).length = 5 := by rw [List.length_drop, hd1]
  have h2 : (l.drop 10).drop 10 ≠ [] := by
    intro e; rw [e] at hd2; simp at hd2
  rw [chunkList_cons_eq 10 (by omega) ((l.drop 10).drop 10) h2]
  have hd3 : (((l.drop 10).drop 10).drop 10).length = 0 := by
    rw [List.length_drop, hd2]
  have h3 : ((l.drop 10).drop 10).drop 10 = [] :=
    List.eq_nil_of_length_eq_zero hd3
  rw [h3, chunkList_nil]
  simp [List.length_take, h, hd1, hd2]

theorem sortByPubDateDesc_perm (l : List Post) :
    List.Perm (sortByPubDateDesc l) l :=
  List.mergeSort_perm l _

theorem sortByPubDateDesc_sorted (l : List Post) :
    (sortByPubDateDesc l).Pairwise (fun a b => b.pub_date ≤ a.pub_date) := by
  unfold sortByPubDateDesc
  refine List.Pairwise.imp ?_ (List.sorted_mergeSort ?_ ?_ l)
  · intro a b hab
    exact of_decide_eq_true hab
  · intro a b c hab hbc
    simp only [decide_eq_true_eq] at *
    omega
  · intro a b
    simp only [Bool.or_eq_true, decide_eq_true_eq]
    omega

theorem list_comments_sorted (s : Store) (p : Post) :
    (list_comments s p).Pairwise (fun a b => a.created_at ≤ b.created_at) := by
  unfold list_comments
  refine List.Pairwise.imp ?_ (List.sorted_mergeSort ?_ ?_ _)
  · intro a b hab
    exact of_decide_eq_true hab
  · intro a b c hab hbc
    simp only [decide_eq_true_eq] at *
    omega
  · intro a b
    simp only [Bool.or_eq_true, decide_eq_true_eq]
    omega

theorem hiddenFromPublic_eq_false_iff (p : Post) (now : Int) :
    hiddenFromPublic p now = false ↔
      (p.is_published = true ∧ p.pub_date ≤ now ∧
        (p.category = none ∨ ∃ c, p.category = some c ∧ c.is_published = true)) := by
  unfold hiddenFromPublic
  cases hcat : p.category with
  | none =>
    simp only [hcat, Bool.or_eq_false_iff, decide_eq_false_iff_not, Int.not_lt,
      Bool.not_eq_false']
    constructor
    · rintro ⟨⟨h1, h2⟩, -⟩
      exact ⟨h2, h1, by trivial⟩
    · rintro ⟨h1, h2, -⟩
      exact ⟨⟨h2, h1⟩, by trivial⟩

  | some c =>
    simp only [hcat, Bool.or_eq_false_iff, decide_eq_false_iff_not, Int.not_lt,
      Bool.not_eq_false']
    constructor
    · rintro ⟨⟨h1, h2⟩, h3⟩
      exact ⟨h2, h1, Or.inr ⟨c, rfl, h3⟩⟩
    · rintro ⟨h1, h2, h3⟩
      refine ⟨⟨h2, h1⟩, ?_⟩
      rcases h3 with h3 | ⟨c2, hc2, hpub⟩
      · exact absurd h3 (by simp)
      · cases Option.some.inj hc2
        exact hpub

/-! ### Sample data used by the concrete witnesses -/

/-- Published category. -/
def catTravel : Category :=
  { id := 1, title := "Travel", description := "d", slug := "travel",
    is_published := true, created_at := 0 }

/-- Unpublished category. -/
def catSecret : Category :=
  { id := 2, title := "Secret", description := "d", slug := "secret",
    is_published := false, created_at := 0 }

/-- Published past-dated post in a published category, author 1. -/
def postA : Post :=
  { id := 1, title := "A", text := "a", pub_date := 5, author := 1,
    location := none, category := some catTravel, is_published := true,
    created_at := 0 }

/-- Unpublished post, author 1. -/
def postB : Post :=
  { id := 2, title := "B", text := "b", pub_date := 4, author := 1,
    location := none, category := some catTravel, is_published := false,
    created_at := 0 }

/-- Future-dated post, author 1. -/
def postC : Post :=
  { id := 3, title := "C", text := "c", pub_date := 500, author := 1,
    location := none, category := some catTravel, is_published := true,
    created_at := 0 }

/-- Published past-dated post with no category, author 2. -/
def postD : Post :=
  { id := 4, title := "D", text := "d", pub_date := 3, author := 2,
    location := none, category := none, is_published := true,
    created_at := 0 }

/-- Published past-dated post in the unpublished category, author 2. -/
def postE : Post :=
  { id := 5, title := "E", text := "e", pub_date := 2, author := 2,
    location := none, category := some catSecret, is_published := true,
    created_at := 0 }

/-- Comment on post 1 by user 2, created later than com2. -/
def com1 : Comment :=
  { id := 1, text := "c1", post := 1, author := 2, created_at := 10 }

/-- Comment on post 1 by user 1, created earlier than com1. -/
def com2 : Comment :=
  { id := 2, text := "c2", post := 1, author := 1, created_at := 7 }

/-- Concrete store used by witnesses. -/
def sampleStore : Store :=
  { categories := [catTravel, catSecret],
    posts := [postA, postB, postC, postD, postE],
    comments := [com1, com2] }

/-! ### C1: post detail -/

/-- C1: for every post id present in the store, every viewer, and every
instant now, get_post_detail returns the post when the viewer is the post's
author, or when post.is_published is true, post.pub_date <= now, and the
post's category is null or has is_published true; in every other case it
fails with NotFound, and it fails with NotFound when no post with that id
exists. -/
theorem get_post_detail_spec (s : Store) (pid : Nat) (viewer : Option Nat)
    (now : Int) :
    (lookupPost s pid = none →
      get_post_detail s pid viewer now = PostDetailOutcome.notFound) ∧
    (∀ p, lookupPost s pid = some p →
      ((get_post_detail s pid viewer now = PostDetailOutcome.ok p ↔
          viewer = some p.author ∨
            (p.is_published = true ∧ p.pub_date ≤ now ∧
              (p.category = none ∨
                ∃ c, p.category = some c ∧ c.is_published = true))) ∧
        (get_post_detail s pid viewer now = PostDetailOutcome.ok p ∨
          get_post_detail s pid viewer now = PostDetailOutcome.notFound))) := by
  constructor
  · intro h
    unfold get_post_detail
    rw [h]
  · intro p hp
    unfold get_post_detail
    rw [hp]
    dsimp only
    by_cases hv : viewer = some p.author
    · have hb : (viewer == some p.author) = true := by simp [hv]
      rw [hb]
      simp only [Bool.not_true, Bool.and_false, if_neg Bool.false_ne_true]
      exact ⟨⟨fun _ => Or.inl hv, fun _ => trivial⟩, Or.inl trivial⟩
    · have hb : (viewer == some p.author) = false := by simp [hv]
      rw [hb]
      cases hh : hiddenFromPublic p now with
      | false =>
        simp only [Bool.not_false, Bool.and_true, if_neg Bool.false_ne_true]
        refine ⟨⟨fun _ => ?_, fun _ => trivial⟩, Or.inl trivial⟩
        exact Or.inr ((hiddenFromPublic_eq_false_iff p now).mp hh)
      | true =>
        simp only [Bool.not_false, Bool.and_true, if_pos rfl]
        refine ⟨⟨fun h => ?_, fun h => ?_⟩, Or.inr rfl⟩
        · exact PostDetailOutcome.noConfusion h
        · rcases h with h | h
          · exact absurd h hv
          · have hf := (hiddenFromPublic_eq_false_iff p now).mpr h
            rw [hh] at hf
            exact Bool.noConfusion hf

/-- C1 witness: post 1 of the sample store is publicly visible at instant
100, so an anonymous viewer receives it. -/
theorem get_post_detail_spec_witness :
    get_post_detail sampleStore 1 none 100 = PostDetailOutcome.ok postA :=
  ((get_post_detail_spec sampleStore 1 none 100).2 postA rfl).1.mpr
    (Or.inr ⟨rfl, by decide, Or.inr ⟨catTravel, rfl, rfl⟩⟩)

/-! ### C2: post mutation by a non-author -/

/-- C2: for every post and every viewer who is not the post's author, an edit
or delete request on that post never raises an error and never mutates the
post: it redirects to the post's read-only detail view, for both the edit and
the delete operations. -/
theorem post_mutation_nonauthor_redirects (s : Store) (pid : Nat)
    (viewer : Option Nat) (f : Post → Post) (p : Post)
    (hp : lookupPost s pid = some p) (hv : viewer ≠ some p.author) :
    post_edit s pid viewer f = (PostEditOutcome.redirectToDetail pid, s) ∧
    post_delete s pid viewer = (PostDeleteOutcome.redirectToDetail pid, s) := by
  have hb : (some p.author == viewer) = false := by
    simp
    exact fun e => hv e.symm
  have hb2 : (viewer == some p.author) = false := by simp [hv]
  unfold post_edit post_delete
  rw [hp]
  dsimp only
  rw [hb, hb2]
  exact ⟨rfl, rfl⟩

/-- C2 witness: user 2 ("alice") attempting to edit or delete post 1 of user
1 ("bob") is redirected to the detail page and the store is unchanged. -/
theorem post_mutation_nonauthor_redirects_witness :
    post_edit sampleStore 1 (some 2) id =
      (PostEditOutcome.redirectToDetail 1, sampleStore) ∧
    post_delete sampleStore 1 (some 2) =
      (PostDeleteOutcome.redirectToDetail 1, sampleStore) :=
  post_mutation_nonauthor_redirects sampleStore 1 (some 2) id postA rfl
    (by decide)

/-! ### C3: comment mutation by a non-author -/

/-- Helper: in a list that is pairwise distinct on a key, two members with
the same key are the same element. -/
theorem pairwise_key_unique {α : Type} {key : α → Nat} {l : List α}
    (hpw : l.Pairwise (fun a b => key a ≠ key b))
    {a b : α} (ha : a ∈ l) (hb : b ∈ l) (hk : key a = key b) : a = b := by
  by_cases hab : a = b
  · exact hab
  · exact absurd hk (List.Pairwise.forall (by intro x y h e; exact h e.symm) hpw ha hb hab)

/-- Helper: the author-restricted comment queryset contains no comment whose
pk is that of a comment owned by someone else. -/
theorem comment_queryset_miss (s : Store) (cid : Nat) (viewer : Nat)
    (c : Comment) (hwf : s.wf) (hc : lookupComment s cid = some c)
    (hv : c.author ≠ viewer) :
    (s.comments.filter (fun x => x.author == viewer)).find?
      (fun x => x.id == cid) = none := by
  rw [List.find?_eq_none]
  intro x hx
  rw [List.mem_filter] at hx
  obtain ⟨hxmem, hxauthor⟩ := hx
  intro hxid
  have hcmem : c ∈ s.comments := List.mem_of_find?_eq_some hc
  have hcid : c.id = cid := by
    have := List.find?_some hc
    simpa using this
  have hxid' : x.id = cid := by simpa using hxid
  have hxc : x = c := pairwise_key_unique hwf.2.1 hxmem hcmem (by rw [hxid', hcid])
  rw [hxc] at hxauthor
  simp at hxauthor
  exact hv hxauthor

/-- C3: for every comment and every viewer who is not the comment's author,
an edit or delete request on that comment fails with NotFound (a hard error,
not a redirect), for both operations, and the comment store is left
unchanged.  The viewer here is authenticated: both views sit behind
LoginRequiredMixin. -/
theorem comment_mutation_nonauthor_notfound (s : Store) (cid : Nat)
    (viewer : Nat) (text : String) (c : Comment) (hwf : s.wf)
    (hc : lookupComment s cid = some c) (hv : c.author ≠ viewer) :
    comment_edit s cid viewer text = (CommentMutateOutcome.notFound, s) ∧
    comment_delete s cid viewer = (CommentMutateOutcome.notFound, s) := by
  have hmiss := comment_queryset_miss s cid viewer c hwf hc hv
  unfold comment_edit comment_delete
  rw [hmiss]
  exact ⟨rfl, rfl⟩

/-- C3 witness: user 1 ("alice") attempting to edit or delete comment 1 of
user 2 ("bob") in the sample store gets a NotFound and the store is
unchanged. -/
theorem comment_mutation_nonauthor_notfound_witness :
    comment_edit sampleStore 1 1 "new" = (CommentMutateOutcome.notFound, sampleStore) ∧
    comment_delete sampleStore 1 1 = (CommentMutateOutcome.notFound, sampleStore) :=
  comment_mutation_nonauthor_notfound sampleStore 1 1 "new" com1 (by decide)
    rfl (by decide)

/-! ### C4: public index listing -/

/-- Helper: characterization of the PostListView row filter. -/
theorem publicIndexFilter_eq_true_iff (now : Int) (p : Post) :
    publicIndexFilter now p = true ↔
      (p.is_published = true ∧ p.pub_date ≤ now ∧
        ∃ c, p.category = some c ∧ c.is_published = true) := by
  unfold publicIndexFilter
  cases hcat : p.category with
  | none =>
    simp [hcat]
  | some c =>
    simp [hcat]
    tauto

/-- Helper: the flattened public index is exactly the sorted annotated
filtered row list. -/
theorem list_public_posts_flatten (s : Store) (now : Int) :
    (list_public_posts s now).flatten =
      (sortByPubDateDesc (s.posts.filter (publicIndexFilter now))).map
        (fun p => (p, commentCount s p)) := by
  unfold list_public_posts
  exact paginate_join 10 (by omega) _

/-- C4: for every instant now, list_public_posts returns exactly the posts
with is_published true, pub_date <= now, and a published category, each
annotated with its comment count, ordered by pub_date descending, paginated
in pages of 10; with 25 qualifying posts it yields exactly 3 pages of sizes
10, 10, and 5. -/
theorem list_public_posts_spec (s : Store) (now : Int) :
    (∀ pr : Post × Nat, pr ∈ (list_public_posts s now).flatten ↔
        (pr.1 ∈ s.posts ∧ pr.1.is_published = true ∧ pr.1.pub_date ≤ now ∧
          (∃ c, pr.1.category = some c ∧ c.is_published = true) ∧
          pr.2 = commentCount s pr.1)) ∧
    ((list_public_posts s now).flatten.map Prod.fst).Pairwise
      (fun a b => b.pub_date ≤ a.pub_date) ∧
    (∀ page ∈ list_public_posts s now, page.length ≤ 10) ∧
    ((s.posts.filter (publicIndexFilter now)).length = 25 →
      (list_public_posts s now).map List.length = [10, 10, 5]) := by
  refine ⟨?_, ?_, ?_, ?_⟩
  · intro pr
    rw [list_public_posts_flatten]
    rw [List.mem_map]
    constructor
    · rintro ⟨p, hp, rfl⟩
      unfold sortByPubDateDesc at hp
      rw [List.mem_mergeSort, List.mem_filter] at hp
      obtain ⟨hmem, hfilt⟩ := hp
      have hchar := (publicIndexFilter_eq_true_iff now p).mp hfilt
      exact ⟨hmem, hchar.1, hchar.2.1, hchar.2.2, rfl⟩
    · rintro ⟨hmem, hpub, hdate, hcat, hcount⟩
      refine ⟨pr.1, ?_, ?_⟩
      · unfold sortByPubDateDesc
        rw [List.mem_mergeSort, List.mem_filter]
        exact ⟨hmem, (publicIndexFilter_eq_true_iff now pr.1).mpr
          ⟨hpub, hdate, hcat⟩⟩
      · rw [← hcount]
  · rw [list_public_posts_flatten, List.map_map]
    have : (Prod.fst ∘ fun p => (p, commentCount s p)) = (id : Post → Post) := by
      funext p; rfl
    rw [this, List.map_id]
    exact sortByPubDateDesc_sorted _
  · exact paginate_page_length 10 _
  · intro h25
    unfold list_public_posts paginate
    have hlen : ((sortByPubDateDesc (s.posts.filter (publicIndexFilter now))).map
        (fun p => (p, commentCount s p))).length = 25 := by
      rw [List.length_map]
      unfold sortByPubDateDesc
      rw [List.length_mergeSort]
      exact h25
    have hne : ¬((sortByPubDateDesc (s.posts.filter (publicIndexFilter now))).map
        (fun p => (p, commentCount s p))).isEmpty = true := by
      rw [List.isEmpty_iff_length_eq_zero, hlen]
      omega
    rw [if_neg hne]
    exact chunkList_ten_of_len_25 _ hlen

/-- Store with 25 qualifying posts used as the pagination witness. -/
def bigStore : Store :=
  { categories := [catTravel],
    posts := (List.range 25).map (fun i =>
      { id := i + 1, title := "t", text := "x", pub_date := Int.ofNat i,
        author := 1, location := none, category := some catTravel,
        is_published := true, created_at := 0 }),
    comments := [] }

/-- C4 witness: with the 25 qualifying posts of bigStore, the index has
exactly 3 pages of sizes 10, 10, 5. -/
theorem list_public_posts_spec_witness :
    (list_public_posts bigStore 100).map List.length = [10, 10, 5] :=
  (list_public_posts_spec bigStore 100).2.2.2 (by decide)

/-! ### C10: null-category posts are absent from the index but visible in
detail -/

/-- C10: every post returned by list_public_posts has a non-null category; a
published past-dated post whose category reference is null is excluded from
the index, although the detail view returns it to any viewer. -/
theorem public_index_requires_category (s : Store) (now : Int) :
    (∀ pr : Post × Nat, pr ∈ (list_public_posts s now).flatten →
      pr.1.category ≠ none) ∧
    (∀ pid p viewer, lookupPost s pid = some p → p.category = none →
      p.is_published = true → p.pub_date ≤ now →
      get_post_detail s pid viewer now = PostDetailOutcome.ok p) := by
  constructor
  · intro pr hpr
    rw [list_public_posts_flatten, List.mem_map] at hpr
    obtain ⟨p, hp, rfl⟩ := hpr
    unfold sortByPubDateDesc at hp
    rw [List.mem_mergeSort, List.mem_filter] at hp
    have hchar := (publicIndexFilter_eq_true_iff now p).mp hp.2
    obtain ⟨c, hc, -⟩ := hchar.2.2
    simp only [hc]
    intro h
    exact Option.noConfusion h
  · intro pid p viewer hp hcat hpub hdate
    have hh : hiddenFromPublic p now = false :=
      (hiddenFromPublic_eq_false_iff p now).mpr ⟨hpub, hdate, Or.inl hcat⟩
    unfold get_post_detail
    rw [hp]
    dsimp only
    rw [hh]
    rfl

/-- C10 witness: post 4 of the sample store (published, past-dated, null
category) is served by the detail view; the theorem applies to it. -/
theorem public_index_requires_category_witness :
    get_post_detail sampleStore 4 (some 1) 100 = PostDetailOutcome.ok postD :=
  (public_index_requires_category sampleStore 100).2 4 postD (some 1) rfl rfl
    rfl (by decide)

/-! ### C5: category listing -/

/-- Helper: characterization of the CategoryListView row filter. -/
theorem categoryPostsFilter_eq_true_iff (slug : String) (now : Int) (p : Post) :
    categoryPostsFilter slug now p = true ↔
      ((∃ c, p.category = some c ∧ c.slug = slug) ∧ p.is_published = true ∧
        p.pub_date ≤ now) := by
  unfold categoryPostsFilter
  cases hcat : p.category with
  | none => simp [hcat]
  | some c =>
    simp [hcat]
    tauto

/-- Helper: a slug lookup success yields a member category bearing that
slug. -/
theorem lookupCategoryBySlug_some (s : Store) (slug : String) (cat : Category)
    (h : lookupCategoryBySlug s slug = some cat) :
    cat ∈ s.categories ∧ cat.slug = slug := by
  refine ⟨List.mem_of_find?_eq_some h, ?_⟩
  have := List.find?_some h
  simpa using this

/-- C5: list_category_posts fails with NotFound when no category has the
slug or the resolved category is unpublished; otherwise it returns the
posts of that category with is_published true and pub_date <= now, ordered
by pub_date descending, paginated by 10, with no additional
category-published filter at the post level. -/
theorem list_category_posts_spec (s : Store) (slug : String) (now : Int)
    (hwf : s.wf) :
    (lookupCategoryBySlug s slug = none →
      list_category_posts s slug now = CategoryListOutcome.notFound) ∧
    (∀ cat, lookupCategoryBySlug s slug = some cat →
      (cat.is_published = false →
        list_category_posts s slug now = CategoryListOutcome.notFound) ∧
      (cat.is_published = true →
        ∃ pages,
          list_category_posts s slug now = CategoryListOutcome.ok cat pages ∧
          (∀ p : Post, p ∈ pages.flatten ↔
            (p ∈ s.posts ∧ p.category = some cat ∧ p.is_published = true ∧
              p.pub_date ≤ now)) ∧
          pages.flatten.Pairwise (fun a b => b.pub_date ≤ a.pub_date) ∧
          (∀ page ∈ pages, page.length ≤ 10))) := by
  constructor
  · intro h
    unfold list_category_posts
    rw [h]
  · intro cat hcat
    obtain ⟨hcatmem, hcatslug⟩ := lookupCategoryBySlug_some s slug cat hcat
    constructor
    · intro hunpub
      unfold list_category_posts
      rw [hcat]
      dsimp only
      rw [hunpub]
      rfl
    · intro hpub
      refine ⟨paginate 10 (sortByPubDateDesc (s.posts.filter
        (categoryPostsFilter slug now))), ?_, ?_, ?_, ?_⟩
      · unfold list_category_posts
        rw [hcat]
        dsimp only
        rw [hpub]
        rfl
      · intro p
        rw [paginate_join 10 (by omega)]
        unfold sortByPubDateDesc
        rw [List.mem_mergeSort, List.mem_filter]
        constructor
        · rintro ⟨hmem, hfilt⟩
          obtain ⟨⟨c, hc, hcslug⟩, hp1, hp2⟩ :=
            (categoryPostsFilter_eq_true_iff slug now p).mp hfilt
          have hcmem : c ∈ s.categories := hwf.2.2.2.2 p hmem c hc
          have hceq : c = cat :=
            hwf.2.2.2.1 c hcmem cat hcatmem (by rw [hcslug, hcatslug])
          rw [hceq] at hc
          exact ⟨hmem, hc, hp1, hp2⟩
        · rintro ⟨hmem, hc, hp1, hp2⟩
          exact ⟨hmem, (categoryPostsFilter_eq_true_iff slug now p).mpr
            ⟨⟨cat, hc, hcatslug⟩, hp1, hp2⟩⟩
      · rw [paginate_join 10 (by omega)]
        exact sortByPubDateDesc_sorted _
      · exact paginate_page_length 10 _

/-- C5 witness: in the sample store, category "travel" is published and its
page listing contains exactly the published past-dated post A. -/
theorem list_category_posts_spec_witness :
    ∃ pages,
      list_category_posts sampleStore "travel" 100 =
        CategoryListOutcome.ok catTravel pages ∧ postA ∈ pages.flatten := by
  obtain ⟨pages, hok, hmem, -, -⟩ :=
    ((list_category_posts_spec sampleStore "travel" 100 (by decide)).2
      catTravel rfl).2 rfl
  exact ⟨pages, hok, (hmem postA).mpr ⟨by decide, rfl, rfl, by decide⟩⟩

/-! ### C6: profile listing -/

/-- Helper: the annotated, sorted post list of one author. -/
def profileBase (s : Store) (u : Nat) : List (Post × Nat) :=
  (sortByPubDateDesc (s.posts.filter (fun p => p.author == u))).map
    (fun p => (p, commentCount s p))

/-- Helper: membership in the profile base list. -/
theorem mem_profileBase (s : Store) (u : Nat) (pr : Post × Nat) :
    pr ∈ profileBase s u ↔
      (pr.1 ∈ s.posts ∧ pr.1.author = u ∧ pr.2 = commentCount s pr.1) := by
  unfold profileBase
  rw [List.mem_map]
  constructor
  · rintro ⟨p, hp, rfl⟩
    unfold sortByPubDateDesc at hp
    rw [List.mem_mergeSort, List.mem_filter] at hp
    exact ⟨hp.1, by simpa using hp.2, rfl⟩
  · rintro ⟨hmem, hauthor, hcount⟩
    refine ⟨pr.1, ?_, ?_⟩
    · unfold sortByPubDateDesc
      rw [List.mem_mergeSort, List.mem_filter]
      exact ⟨hmem, by simpa using hauthor⟩
    · rw [← hcount]

/-- Helper: the profile base projected to posts is sorted by pub_date
descending. -/
theorem profileBase_sorted (s : Store) (u : Nat) :
    ((profileBase s u).map Prod.fst).Pairwise
      (fun a b => b.pub_date ≤ a.pub_date) := by
  unfold profileBase
  rw [List.map_map]
  have : (Prod.fst ∘ fun p => (p, commentCount s p)) = (id : Post → Post) := by
    funext p; rfl
  rw [this, List.map_id]
  exact sortByPubDateDesc_sorted _

/-- Helper: branch taken by list_profile_posts. -/
theorem list_profile_posts_eq (s : Store) (u : Nat) (viewer : Option Nat)
    (now : Int) :
    list_profile_posts s u viewer now =
      (if viewer = some u then paginate 10 (profileBase s u)
       else paginate 10 ((profileBase s u).filter
         (fun pr => pr.1.is_published && decide (pr.1.pub_date ≤ now)))) := by
  unfold list_profile_posts profileBase
  by_cases hv : viewer = some u
  · have hb : (viewer == some u) = true := by simp [hv]
    rw [hb, if_pos hv]
    dsimp only
    rw [if_pos rfl]
  · have hb : (viewer == some u) = false := by simp [hv]
    rw [hb, if_neg hv]
    dsimp only
    rw [if_neg Bool.false_ne_true]

/-- C6: list_profile_posts returns all of the profile user's posts (including
unpublished and future-dated ones) when the viewer is the profile user, and
otherwise only those with is_published true and pub_date <= now, with no
category-published clause in either case; both branches are ordered by
pub_date descending and paginated by 10. -/
theorem list_profile_posts_spec (s : Store) (u : Nat) (viewer : Option Nat)
    (now : Int) :
    (viewer = some u →
      ∀ pr : Post × Nat, pr ∈ (list_profile_posts s u viewer now).flatten ↔
        (pr.1 ∈ s.posts ∧ pr.1.author = u ∧ pr.2 = commentCount s pr.1)) ∧
    (viewer ≠ some u →
      ∀ pr : Post × Nat, pr ∈ (list_profile_posts s u viewer now).flatten ↔
        (pr.1 ∈ s.posts ∧ pr.1.author = u ∧ pr.1.is_published = true ∧
          pr.1.pub_date ≤ now ∧ pr.2 = commentCount s pr.1)) ∧
    ((list_profile_posts s u viewer now).flatten.map Prod.fst).Pairwise
      (fun a b => b.pub_date ≤ a.pub_date) ∧
    (∀ page ∈ list_profile_posts s u viewer now, page.length ≤ 10) := by
  refine ⟨?_, ?_, ?_, ?_⟩
  · intro hv pr
    rw [list_profile_posts_eq, if_pos hv, paginate_join 10 (by omega)]
    exact mem_profileBase s u pr
  · intro hv pr
    rw [list_profile_posts_eq, if_neg hv, paginate_join 10 (by omega),
      List.mem_filter]
    rw [mem_profileBase]
    constructor
    · rintro ⟨⟨hmem, hauthor, hcount⟩, hflt⟩
      rw [Bool.and_eq_true, decide_eq_true_eq] at hflt
      exact ⟨hmem, hauthor, hflt.1, hflt.2, hcount⟩
    · rintro ⟨hmem, hauthor, hpub, hdate, hcount⟩
      refine ⟨⟨hmem, hauthor, hcount⟩, ?_⟩
      rw [Bool.and_eq_true, decide_eq_true_eq]
      exact ⟨hpub, hdate⟩
  · rw [list_profile_posts_eq]
    by_cases hv : viewer = some u
    · rw [if_pos hv, paginate_join 10 (by omega)]
      exact profileBase_sorted s u
    · rw [if_neg hv, paginate_join 10 (by omega)]
      refine List.Pairwise.sublist ?_ (profileBase_sorted s u)
      exact List.Sublist.map Prod.fst (List.filter_sublist _)
  · rw [list_profile_posts_eq]
    by_cases hv : viewer = some u
    · rw [if_pos hv]
      exact paginate_page_length 10 _
    · rw [if_neg hv]
      exact paginate_page_length 10 _

/-- C6 witness: user 1 sees their own future-dated post 3 on their profile;
user 2 viewing user 1's profile does not see it. -/
theorem list_profile_posts_spec_witness :
    (postC, 0) ∈ (list_profile_posts sampleStore 1 (some 1) 100).flatten ∧
    (postC, 0) ∉ (list_profile_posts sampleStore 1 (some 2) 100).flatten := by
  constructor
  · exact ((list_profile_posts_spec sampleStore 1 (some 1) 100).1 rfl
      (postC, 0)).mpr ⟨by decide, rfl, rfl⟩
  · intro h
    have hc := ((list_profile_posts_spec sampleStore 1 (some 2) 100).2.1
      (by decide) (postC, 0)).mp h
    exact absurd hc.2.2.2.1 (by decide)

/-! ### C7: anonymous viewers -/

/-- C7 counterexample: post 1 of the sample store is publicly visible (the
view body would return it), yet the full dispatch of PostDetailView sends an
anonymous viewer to the login page instead of the normal result, and the
full dispatch of CategoryListView does the same for the published category
"travel": both views inherit LoginRequiredMixin. -/
theorem anonymous_read_counterexample :
    get_post_detail sampleStore 1 none 100 = PostDetailOutcome.ok postA ∧
    post_detail_dispatch sampleStore 1 none 100 = DetailPage.loginRedirect ∧
    post_detail_dispatch sampleStore 1 none 100 ≠ DetailPage.ok postA ∧
    category_list_dispatch sampleStore "travel" none 100 =
      CategoryPage.loginRedirect := by
  refine ⟨by decide, rfl, ?_, rfl⟩
  intro h
  exact DetailPage.noConfusion h

/-- C7 amended: PostListView and ProfileDetailView accept an anonymous
viewer and serve the normal result (list_public_posts takes no viewer at
all, and an anonymous profile request gets exactly the public listing any
non-owner gets), but PostDetailView and CategoryListView carry
LoginRequiredMixin: an anonymous viewer is redirected to login rather than
served. -/
theorem anonymous_read_amended (s : Store) (pid : Nat) (slug : String)
    (u : Nat) (now : Int) :
    post_detail_dispatch s pid none now = DetailPage.loginRedirect ∧
    category_list_dispatch s slug none now = CategoryPage.loginRedirect ∧
    (∀ v, v ≠ u →
      list_profile_posts s u none now = list_profile_posts s u (some v) now) := by
  refine ⟨rfl, rfl, ?_⟩
  intro v hv
  rw [list_profile_posts_eq, list_profile_posts_eq]
  rw [if_neg (by intro h; exact Option.noConfusion h)]
  rw [if_neg (by intro h; exact hv (by simpa using h))]

/-- C7 amended witness: anonymous access to post 1's detail page redirects
to login, while user 1's profile listing for an anonymous viewer equals the
one a non-owner (user 2) gets. -/
theorem anonymous_read_amended_witness :
    post_detail_dispatch sampleStore 1 none 100 = DetailPage.loginRedirect ∧
    list_profile_posts sampleStore 1 none 100 =
      list_profile_posts sampleStore 1 (some 2) 100 := by
  obtain ⟨h1, -, h3⟩ := anonymous_read_amended sampleStore 1 "travel" 1 100
  exact ⟨h1, h3 2 (by decide)⟩

/-! ### C8: comment edit with invalid form input -/

/-- C8: a comment-edit request by the comment's own author with invalid
(blank) form input fails with the hard NotFound-style failure raised by
form_invalid, not a validation-error response, and the store is left
unchanged. -/
theorem comment_edit_invalid_form_notfound (s : Store) (cid : Nat)
    (viewer : Nat) (text : String) (c : Comment)
    (_hc : lookupComment s cid = some c) (_hauthor : c.author = viewer)
    (hinvalid : commentFormValid text = false) :
    comment_edit s cid viewer text = (CommentMutateOutcome.notFound, s) := by
  unfold comment_edit
  cases hfind : (s.comments.filter (fun x => x.author == viewer)).find?
      (fun x => x.id == cid) with
  | none => rfl
  | some c2 =>
    dsimp only
    rw [hinvalid]
    rfl

/-- C8 witness: user 1 editing their own comment 2 with blank text gets a
NotFound and the store is unchanged. -/
theorem comment_edit_invalid_form_notfound_witness :
    comment_edit sampleStore 2 1 "" = (CommentMutateOutcome.notFound, sampleStore) :=
  comment_edit_invalid_form_notfound sampleStore 2 1 "" com2 rfl rfl rfl

/-! ### C9: comment listing -/

/-- C9: the sequence returned by list_comments contains exactly the stored
comments of the post — each entry being the full stored record, author
identity included — and is sorted ascending by creation time. -/
theorem list_comments_spec (s : Store) (p : Post) :
    (∀ c : Comment, c ∈ list_comments s p ↔ (c ∈ s.comments ∧ c.post = p.id)) ∧
    (list_comments s p).Pairwise (fun a b => a.created_at ≤ b.created_at) := by
  constructor
  · intro c
    unfold list_comments
    rw [List.mem_mergeSort, List.mem_filter]
    simp
  · exact list_comments_sorted s p
